import Mathlib

/-!
Shallow embedding of the monetary-amount formatter of this repository.

Two variants of the formatter coexist in the source:
* the stricter one, src/packages/wp-checkout/src/lib/format-monetary-amount-for-locale.js,
  embedded in namespace WpCheckout below;
* the looser near-duplicate, src/unnamed/part_000, embedded in namespace PartZero.

Modelling decisions:
* JavaScript integer amounts become Int (absolute amounts become Nat); the
  functions are total Lean functions into Except String, where .error models a
  JavaScript throw of the given string (the source throws bare string literals).
* Number.prototype.toString for a nonnegative integer is modelled by
  natToString (base-10 digits, most significant first), and for a signed
  integer by intToString; String.prototype.padStart by padStart;
  Array.prototype.join by joinSep.
* String.prototype.toLowerCase / toUpperCase are modelled by jsToLower /
  jsToUpper, the per-character ASCII case maps (every code the program
  compares against is ASCII).
* The entry point validates its arguments dynamically (isString, typeof
  number, Number.isInteger), so it takes arguments of type JVal, a small model
  of the JavaScript values that can reach it: strings, numbers (modelled as
  rationals, enough to decide Number.isInteger), and anything else.
* Recursions (natToStringAux, groupDigitsAccumFuel) carry a fuel argument so
  that the kernel can evaluate them; the recurrences the source writes are
  proved as equations (natToString_eq, groupDigitsAccum_eq) and all reasoning
  goes through those.
-/

deriving instance DecidableEq for Except

/-- Model of a JavaScript value reaching the entry point: a string, a number
(rational: enough to decide Number.isInteger), or any other value. -/
inductive JVal where
  | str : String → JVal
  | num : ℚ → JVal
  | other : JVal

/-- Model of String.prototype.toLowerCase on one character (ASCII range). -/
def charToLowerJs (c : Char) : Char :=
  if 65 ≤ c.toNat ∧ c.toNat ≤ 90 then Char.ofNat (c.toNat + 32) else c

/-- Model of String.prototype.toUpperCase on one character (ASCII range). -/
def charToUpperJs (c : Char) : Char :=
  if 97 ≤ c.toNat ∧ c.toNat ≤ 122 then Char.ofNat (c.toNat - 32) else c

/-- Model of String.prototype.toLowerCase. -/
def jsToLower (s : String) : String := String.mk (s.data.map charToLowerJs)

/-- Model of String.prototype.toUpperCase. -/
def jsToUpper (s : String) : String := String.mk (s.data.map charToUpperJs)

/-- Decimal digit character of d < 10 (d ≥ 9 clamps to '9'; callers pass d < 10). -/
def digitChar (d : Nat) : Char :=
  match d with
  | 0 => '0' | 1 => '1' | 2 => '2' | 3 => '3' | 4 => '4'
  | 5 => '5' | 6 => '6' | 7 => '7' | 8 => '8' | _ => '9'

/-- Fuelled base-10 digit rendering; fuel bounds the recursion depth so the
kernel can evaluate it. natToStringAux_irrel shows any sufficient fuel agrees. -/
def natToStringAux (fuel : Nat) (n : Nat) : List Char :=
  match fuel with
  | 0 => []
  | fuel + 1 =>
    if n < 10 then [digitChar n]
    else natToStringAux fuel (n / 10) ++ [digitChar (n % 10)]

/-- Model of Number.prototype.toString for a nonnegative integer. -/
def natToString (n : Nat) : String := String.mk (natToStringAux (n + 1) n)

/-- Model of Number.prototype.toString for a signed integer. -/
def intToString (i : Int) : String :=
  if i < 0 then "-" ++ natToString i.natAbs else natToString i.natAbs

/-- Model of String.prototype.padStart with a single pad character. -/
def padStart (s : String) (n : Nat) (c : Char) : String :=
  if n ≤ s.length then s else String.mk (List.replicate (n - s.length) c) ++ s

/-- Model of Array.prototype.join for an array of strings. -/
def joinSep (sep : String) : List String → String
  | [] => ""
  | [x] => x
  | x :: y :: xs => x ++ sep ++ joinSep sep (y :: xs)

/-- Locale separators record, source's separatorsForLocale return shape. -/
structure Separators where
  decimalSeparator : String
  groupSeparator : String
deriving DecidableEq

/-- Source separatorsForLocale (identical in both variants).  The switch has
no default case, so an unknown locale falls through and the function returns
undefined, modelled as none (it does NOT throw). -/
def separatorsForLocale (localeCode : String) : Option Separators :=
  if jsToLower localeCode = "gb" ∨ jsToLower localeCode = "jp" ∨
      jsToLower localeCode = "nz" ∨ jsToLower localeCode = "us" then
    some ⟨".", ","⟩
  else if jsToLower localeCode = "au" then some ⟨".", " "⟩
  else if jsToLower localeCode = "br" then some ⟨",", "."⟩
  else none

/-- Source minorUnitsPerMajorUnitForCurrency (identical in both variants). -/
def minorUnitsPerMajorUnitForCurrency (currencyCode : String) : Except String Nat :=
  if jsToUpper currencyCode = "JPY" then .ok 1
  else if jsToUpper currencyCode = "BRL" ∨ jsToUpper currencyCode = "CAD" ∨
      jsToUpper currencyCode = "EUR" ∨ jsToUpper currencyCode = "GBP" ∨
      jsToUpper currencyCode = "NZD" ∨ jsToUpper currencyCode = "USD" then .ok 100
  else .error "Unknown currency exponent"

/-- Fuelled inner accumulator of the source groupDigits (identical in both
variants); fuel bounds the recursion depth so the kernel can evaluate it. -/
def groupDigitsAccumFuel (fuel : Nat) (localAmount : Nat) (localDigits : List String) :
    List String :=
  match fuel with
  | 0 => localDigits
  | fuel + 1 =>
    if localAmount < 1000 then natToString localAmount :: localDigits
    else groupDigitsAccumFuel fuel (localAmount / 1000)
      (padStart (natToString (localAmount % 1000)) 3 '0' :: localDigits)

/-- Source groupDigitsAccum; groupDigitsAccum_eq proves the source recurrence. -/
def groupDigitsAccum (localAmount : Nat) (localDigits : List String) : List String :=
  groupDigitsAccumFuel (localAmount + 1) localAmount localDigits

/-- Source groupDigits: base-1000 digits of an integer as strings, most to
least significant (identical in both variants). -/
def groupDigits (amount : Nat) : List String := groupDigitsAccum amount []

namespace WpCheckout

/-- Source minorUnitsAsDecimalForCurrency of the stricter variant: range-checks
the minor-unit value and carries the currency code inside its error texts. -/
def minorUnitsAsDecimalForCurrency (currencyCode : String) (absoluteAmount : Int) :
    Except String String :=
  if jsToUpper currencyCode = "AUD" ∨ jsToUpper currencyCode = "CAD" ∨
      jsToUpper currencyCode = "EUR" ∨ jsToUpper currencyCode = "GBP" ∨
      jsToUpper currencyCode = "NZD" ∨ jsToUpper currencyCode = "USD" then
    if absoluteAmount < 0 ∨ 100 ≤ absoluteAmount then .error ""
    else .ok (padStart (intToString absoluteAmount) 2 '0')
  else if jsToUpper currencyCode = "JPY" then
    .error ("Currency does not have a minimal unit: " ++ jsToUpper currencyCode)
  else .error ("Minor unit format for currency code not defined: " ++ jsToUpper currencyCode)

/-- Source symbolForCurrency of the stricter variant (knows BRL). -/
def symbolForCurrency (currencyCode : String) : Except String String :=
  if jsToUpper currencyCode = "AUD" ∨ jsToUpper currencyCode = "CAD" ∨
      jsToUpper currencyCode = "NZD" ∨ jsToUpper currencyCode = "USD" then .ok "$"
  else if jsToUpper currencyCode = "GBP" then .ok "£"
  else if jsToUpper currencyCode = "EUR" then .ok "€"
  else if jsToUpper currencyCode = "JPY" then .ok "¥"
  else if jsToUpper currencyCode = "BRL" then .ok "R$"
  else .error ("Symbol for currency code not defined: " ++ jsToUpper currencyCode)

/-- Source digitGroupsOfAmountForCurrency.  The nonnegative-integer guard of
the source is vacuous here because absoluteAmount is a Nat.  The returned pair
is (integerPart, fractionalPart); fractionalPart is none exactly when the
source returns an object without that property (the base-1 branch). -/
def digitGroupsOfAmountForCurrency (currencyCode : String) (absoluteAmount : Nat) :
    Except String (List String × Option String) :=
  if absoluteAmount = 0 then
    match minorUnitsAsDecimalForCurrency currencyCode 0 with
    | .error e => .error e
    | .ok fractionalPart => .ok (["0"], some fractionalPart)
  else
    match minorUnitsPerMajorUnitForCurrency currencyCode with
    | .error e => .error e
    | .ok base =>
      if base = 1 then .ok (groupDigits absoluteAmount, none)
      else
        match minorUnitsAsDecimalForCurrency currencyCode ((absoluteAmount % base : Nat) : Int) with
        | .error e => .error e
        | .ok fractionalPart => .ok (groupDigits (absoluteAmount / base), some fractionalPart)

/-- Source renderAmountWithSeparatorsForCurrencyAndLocale.  When the locale is
not in the separators table the source destructures undefined, which raises a
TypeError; that is the .error in the none branch (unreachable from the entry
point, whose only dispatched locale is in the table). -/
def renderAmountWithSeparatorsForCurrencyAndLocale (absoluteAmount : Nat)
    (localeCode currencyCode : String) : Except String String :=
  match digitGroupsOfAmountForCurrency currencyCode absoluteAmount with
  | .error e => .error e
  | .ok (integerPart, fractionalPart) =>
    match separatorsForLocale localeCode with
    | none => .error "TypeError: cannot destructure separators of undefined"
    | some seps =>
      match minorUnitsPerMajorUnitForCurrency currencyCode with
      | .error e => .error e
      | .ok base =>
        if base = 1 then .ok (joinSep seps.groupSeparator integerPart)
        else .ok (joinSep seps.groupSeparator integerPart ++ seps.decimalSeparator ++
          (fractionalPart.getD "undefined"))

/-- Source formatSymbolAmount: symbol and amount, e.g. $100. -/
def formatSymbolAmount (amountSign : Int) (absoluteAmount : Nat)
    (localeCode currencyCode : String) : Except String String :=
  match symbolForCurrency currencyCode with
  | .error e => .error e
  | .ok symbol =>
    if amountSign = 0 then .ok (symbol ++ "0")
    else
      match renderAmountWithSeparatorsForCurrencyAndLocale absoluteAmount localeCode
          currencyCode with
      | .error e => .error e
      | .ok rendered => .ok ((if 0 ≤ amountSign then "" else "-") ++ (symbol ++ rendered))

/-- Source formatSymbolAmountCode: symbol, amount and currency code, e.g. $100 NZD. -/
def formatSymbolAmountCode (amountSign : Int) (absoluteAmount : Nat)
    (localeCode currencyCode : String) : Except String String :=
  match formatSymbolAmount amountSign absoluteAmount localeCode currencyCode with
  | .error e => .error e
  | .ok s => .ok (s ++ (" " ++ currencyCode))

/-- Body of the source formatMonetaryAmountForLocale after input validation:
Math.abs becomes Int.natAbs, Math.sign becomes Int.sign, and the two nested
switches become the conditionals below. -/
def formatCore (localeCode currencyCode : String) (amount : Int) : Except String String :=
  if jsToLower localeCode = "us" then
    if jsToUpper currencyCode = "USD" ∨ jsToUpper currencyCode = "JPY" ∨
        jsToUpper currencyCode = "GBP" ∨ jsToUpper currencyCode = "EUR" then
      formatSymbolAmount (Int.sign amount) amount.natAbs (jsToLower localeCode)
        (jsToUpper currencyCode)
    else
      formatSymbolAmountCode (Int.sign amount) amount.natAbs (jsToLower localeCode)
        (jsToUpper currencyCode)
  else .error "Unhandled locale"

/-- Source formatMonetaryAmountForLocale (stricter variant), including the
dynamic input validation: locale and currency must be strings, the amount must
be a number and an integer (a rational with denominator 1). -/
def formatMonetaryAmountForLocale (localeCode currencyCode amount : JVal) :
    Except String String :=
  match localeCode with
  | .str l =>
    match currencyCode with
    | .str c =>
      match amount with
      | .num q =>
        if q.den = 1 then formatCore l c q.num
        else .error "amount parameter must be an integer."
      | _ => .error "amount parameter must be a number."
    | _ => .error "currency parameter must be a string."
  | _ => .error "locale parameter must be a string."

end WpCheckout

namespace PartZero

/-- Source minorUnitsAsDecimalForCurrency of the looser variant in
src/unnamed/part_000: fewer currencies, no range validation, bare error texts. -/
def minorUnitsAsDecimalForCurrency (currencyCode : String) (absoluteAmount : Int) :
    Except String String :=
  if jsToUpper currencyCode = "EUR" ∨ jsToUpper currencyCode = "GBP" ∨
      jsToUpper currencyCode = "NZD" ∨ jsToUpper currencyCode = "USD" then
    .ok (padStart (intToString absoluteAmount) 2 '0')
  else if jsToUpper currencyCode = "JPY" then
    .error "Currency does not have a minimal unit."
  else .error "Unknown minor unit format"

/-- Source symbolForCurrency of the looser variant (no BRL entry). -/
def symbolForCurrency (currencyCode : String) : Except String String :=
  if jsToUpper currencyCode = "AUD" ∨ jsToUpper currencyCode = "CAD" ∨
      jsToUpper currencyCode = "NZD" ∨ jsToUpper currencyCode = "USD" then .ok "$"
  else if jsToUpper currencyCode = "GBP" then .ok "£"
  else if jsToUpper currencyCode = "EUR" then .ok "€"
  else if jsToUpper currencyCode = "JPY" then .ok "¥"
  else .error "Unknown currency symbol"

/-- Source digitGroupsOfAmountForCurrency of the looser variant (same shape as
the stricter one, but calling this namespace's minor-unit renderer). -/
def digitGroupsOfAmountForCurrency (currencyCode : String) (absoluteAmount : Nat) :
    Except String (List String × Option String) :=
  if absoluteAmount = 0 then
    match minorUnitsAsDecimalForCurrency currencyCode 0 with
    | .error e => .error e
    | .ok fractionalPart => .ok (["0"], some fractionalPart)
  else
    match minorUnitsPerMajorUnitForCurrency currencyCode with
    | .error e => .error e
    | .ok base =>
      if base = 1 then .ok (groupDigits absoluteAmount, none)
      else
        match minorUnitsAsDecimalForCurrency currencyCode ((absoluteAmount % base : Nat) : Int) with
        | .error e => .error e
        | .ok fractionalPart => .ok (groupDigits (absoluteAmount / base), some fractionalPart)

/-- Source renderAmountWithSeparatorsForCurrencyAndLocale of the looser variant. -/
def renderAmountWithSeparatorsForCurrencyAndLocale (absoluteAmount : Nat)
    (localeCode currencyCode : String) : Except String String :=
  match digitGroupsOfAmountForCurrency currencyCode absoluteAmount with
  | .error e => .error e
  | .ok (integerPart, fractionalPart) =>
    match separatorsForLocale localeCode with
    | none => .error "TypeError: cannot destructure separators of undefined"
    | some seps =>
      match minorUnitsPerMajorUnitForCurrency currencyCode with
      | .error e => .error e
      | .ok base =>
        if base = 1 then .ok (joinSep seps.groupSeparator integerPart)
        else .ok (joinSep seps.groupSeparator integerPart ++ seps.decimalSeparator ++
          (fractionalPart.getD "undefined"))

/-- Source formatSymbolAmount of the looser variant. -/
def formatSymbolAmount (amountSign : Int) (absoluteAmount : Nat)
    (localeCode currencyCode : String) : Except String String :=
  match symbolForCurrency currencyCode with
  | .error e => .error e
  | .ok symbol =>
    if amountSign = 0 then .ok (symbol ++ "0")
    else
      match renderAmountWithSeparatorsForCurrencyAndLocale absoluteAmount localeCode
          currencyCode with
      | .error e => .error e
      | .ok rendered => .ok ((if 0 ≤ amountSign then "" else "-") ++ (symbol ++ rendered))

/-- Source formatSymbolAmountCode of the looser variant. -/
def formatSymbolAmountCode (amountSign : Int) (absoluteAmount : Nat)
    (localeCode currencyCode : String) : Except String String :=
  match formatSymbolAmount amountSign absoluteAmount localeCode currencyCode with
  | .error e => .error e
  | .ok s => .ok (s ++ (" " ++ currencyCode))

/-- Body of the looser variant formatMonetaryAmountForLocale after input
validation (the validation and dispatch lines are identical to the stricter
variant's). -/
def formatCore (localeCode currencyCode : String) (amount : Int) : Except String String :=
  if jsToLower localeCode = "us" then
    if jsToUpper currencyCode = "USD" ∨ jsToUpper currencyCode = "JPY" ∨
        jsToUpper currencyCode = "GBP" ∨ jsToUpper currencyCode = "EUR" then
      formatSymbolAmount (Int.sign amount) amount.natAbs (jsToLower localeCode)
        (jsToUpper currencyCode)
    else
      formatSymbolAmountCode (Int.sign amount) amount.natAbs (jsToLower localeCode)
        (jsToUpper currencyCode)
  else .error "Unhandled locale"

/-- Source formatMonetaryAmountForLocale (looser variant), with the same
dynamic input validation as the stricter variant. -/
def formatMonetaryAmountForLocale (localeCode currencyCode amount : JVal) :
    Except String String :=
  match localeCode with
  | .str l =>
    match currencyCode with
    | .str c =>
      match amount with
      | .num q =>
        if q.den = 1 then formatCore l c q.num
        else .error "amount parameter must be an integer."
      | _ => .error "amount parameter must be a number."
    | _ => .error "currency parameter must be a string."
  | _ => .error "locale parameter must be a string."

end PartZero

/-! Measurement helpers used to state the claims: character counts, the
characters after the first occurrence of a separator, digit-string values. -/

/-- Number of occurrences of a character in a string. -/
def countChar (s : String) (c : Char) : Nat := s.data.count c

/-- Characters strictly after the first occurrence of c in s. -/
def charsAfter (s : String) (c : Char) : List Char :=
  (s.data.dropWhile (fun x => x != c)).tail

/-- Checks that a formatter result is a string with exactly one decimal point
and exactly two digit characters after it. -/
def twoDecimalCheck (r : Except String String) : Bool :=
  match r with
  | .error _ => false
  | .ok s => countChar s '.' == 1 && ((charsAfter s '.').filter Char.isDigit).length == 2

/-! General lemmas about the string-building helpers. -/

lemma natToStringAux_irrel : ∀ f g n : Nat, n < f → n < g →
    natToStringAux f n = natToStringAux g n := by
  intro f
  induction f using Nat.strong_induction_on with
  | _ f ih =>
    intro g n hf hg
    match f, g with
    | f + 1, g + 1 =>
      simp only [natToStringAux]
      by_cases h : n < 10
      · rw [if_pos h, if_pos h]
      · rw [if_neg h, if_neg h]
        have hd : n / 10 < n := Nat.div_lt_self (by omega) (by omega)
        rw [ih f (by omega) g (n / 10) (by omega) (by omega)]

lemma natToString_eq (n : Nat) :
    natToString n = if n < 10 then String.mk [digitChar n]
      else natToString (n / 10) ++ String.mk [digitChar (n % 10)] := by
  by_cases h : n < 10
  · rw [if_pos h]
    show String.mk (natToStringAux (n + 1) n) = _
    simp only [natToStringAux, if_pos h]
  · rw [if_neg h]
    show String.mk (natToStringAux (n + 1) n) = _
    have h1 : natToStringAux (n + 1) n = natToStringAux n (n / 10) ++ [digitChar (n % 10)] := by
      simp only [natToStringAux, if_neg h]
    have h2 : natToStringAux n (n / 10) = natToStringAux (n / 10 + 1) (n / 10) :=
      natToStringAux_irrel n (n / 10 + 1) (n / 10) (by omega) (by omega)
    rw [h1, h2]
    rfl

lemma data_append (a b : String) : (a ++ b).data = a.data ++ b.data := String.data_append a b

lemma natToString_data (n : Nat) :
    (natToString n).data = if n < 10 then [digitChar n]
      else (natToString (n / 10)).data ++ [digitChar (n % 10)] := by
  by_cases h : n < 10
  · rw [natToString_eq n, if_pos h, if_pos h]
  · rw [natToString_eq n, if_neg h, if_neg h, data_append]

lemma digitChar_isDigit (d : Nat) : (digitChar d).isDigit = true := by
  unfold digitChar
  split <;> decide

lemma digitChar_lt_toNat (d : Nat) (hd : d < 10) : (digitChar d).toNat - 48 = d := by
  interval_cases d <;> decide

lemma digitChar_ne_zeroChar (d : Nat) (h1 : 1 ≤ d) (h9 : d < 10) : digitChar d ≠ '0' := by
  interval_cases d <;> decide

lemma natToString_all_digits (n : Nat) : ∀ c ∈ (natToString n).data, c.isDigit = true := by
  induction n using Nat.strong_induction_on with
  | _ n ih =>
    intro c hc
    rw [natToString_data] at hc
    by_cases h : n < 10
    · rw [if_pos h] at hc
      simp only [List.mem_singleton] at hc
      subst hc
      exact digitChar_isDigit n
    · rw [if_neg h] at hc
      rcases List.mem_append.mp hc with h1 | h2
      · exact ih (n / 10) (Nat.div_lt_self (by omega) (by omega)) c h1
      · simp only [List.mem_singleton] at h2
        subst h2
        exact digitChar_isDigit (n % 10)

lemma natToString_ne_nil (n : Nat) : (natToString n).data ≠ [] := by
  rw [natToString_data]
  by_cases h : n < 10
  · rw [if_pos h]; simp
  · rw [if_neg h]; simp

lemma natToString_length_pos (n : Nat) : 1 ≤ (natToString n).length := by
  have := natToString_ne_nil n
  show 1 ≤ (natToString n).data.length
  cases hE : (natToString n).data with
  | nil => exact absurd hE this
  | cons a l => simp

lemma natToString_length_lt10 (n : Nat) (h : n < 10) : (natToString n).length = 1 := by
  show (natToString n).data.length = 1
  rw [natToString_data, if_pos h]
  rfl

lemma natToString_length_ge10 (n : Nat) (h : ¬ n < 10) :
    (natToString n).length = (natToString (n / 10)).length + 1 := by
  show (natToString n).data.length = (natToString (n / 10)).data.length + 1
  rw [natToString_data, if_neg h, List.length_append]
  rfl

lemma natToString_length_le (n : Nat) (h : n < 1000) : (natToString n).length ≤ 3 := by
  by_cases h1 : n < 10
  · rw [natToString_length_lt10 n h1]; omega
  · rw [natToString_length_ge10 n h1]
    by_cases h2 : n / 10 < 10
    · rw [natToString_length_lt10 _ h2]; omega
    · rw [natToString_length_ge10 _ h2]
      have h3 : n / 10 / 10 < 10 := by omega
      rw [natToString_length_lt10 _ h3]

lemma natToString_head_ne_zero (n : Nat) (hn : 1 ≤ n) :
    (natToString n).data.head? ≠ some '0' := by
  induction n using Nat.strong_induction_on with
  | _ n ih =>
    rw [natToString_data]
    by_cases h : n < 10
    · rw [if_pos h]
      simp only [List.head?_cons, Option.some.injEq]
      intro hEq
      exact digitChar_ne_zeroChar n hn h (Option.some.inj hEq)
    · rw [if_neg h]
      rw [List.head?_append_of_ne_nil]
      · exact ih (n / 10) (Nat.div_lt_self (by omega) (by omega)) (by omega)
      · exact natToString_ne_nil (n / 10)

lemma groupDigitsAccumFuel_irrel : ∀ f g m : Nat, m < f → m < g → ∀ ds,
    groupDigitsAccumFuel f m ds = groupDigitsAccumFuel g m ds := by
  intro f
  induction f using Nat.strong_induction_on with
  | _ f ih =>
    intro g m hf hg ds
    match f, g with
    | f + 1, g + 1 =>
      simp only [groupDigitsAccumFuel]
      by_cases h : m < 1000
      · rw [if_pos h, if_pos h]
      · rw [if_neg h, if_neg h]
        have hd : m / 1000 < m := Nat.div_lt_self (by omega) (by omega)
        rw [ih f (by omega) g (m / 1000) (by omega) (by omega)]

lemma groupDigitsAccum_eq (m : Nat) (ds : List String) :
    groupDigitsAccum m ds = if m < 1000 then natToString m :: ds
      else groupDigitsAccum (m / 1000) (padStart (natToString (m % 1000)) 3 '0' :: ds) := by
  by_cases h : m < 1000
  · rw [if_pos h]
    show groupDigitsAccumFuel (m + 1) m ds = _
    simp only [groupDigitsAccumFuel, if_pos h]
  · rw [if_neg h]
    show groupDigitsAccumFuel (m + 1) m ds = _
    have h1 : groupDigitsAccumFuel (m + 1) m ds
        = groupDigitsAccumFuel m (m / 1000) (padStart (natToString (m % 1000)) 3 '0' :: ds) := by
      simp only [groupDigitsAccumFuel, if_neg h]
    have hd : m / 1000 < m := Nat.div_lt_self (by omega) (by omega)
    rw [h1]
    exact groupDigitsAccumFuel_irrel m (m / 1000 + 1) (m / 1000) (by omega) (by omega) _

lemma groupDigitsAccum_append (m : Nat) : ∀ ds,
    groupDigitsAccum m ds = groupDigitsAccum m [] ++ ds := by
  induction m using Nat.strong_induction_on with
  | _ m ih =>
    intro ds
    by_cases h : m < 1000
    · rw [groupDigitsAccum_eq m ds, groupDigitsAccum_eq m [], if_pos h, if_pos h]
      rfl
    · have hd : m / 1000 < m := Nat.div_lt_self (by omega) (by omega)
      rw [groupDigitsAccum_eq m ds, groupDigitsAccum_eq m [], if_neg h, if_neg h]
      rw [ih (m / 1000) hd, ih (m / 1000) hd (padStart (natToString (m % 1000)) 3 '0' :: [])]
      simp

lemma groupDigits_eq (m : Nat) :
    groupDigits m = if m < 1000 then [natToString m]
      else groupDigits (m / 1000) ++ [padStart (natToString (m % 1000)) 3 '0'] := by
  show groupDigitsAccum m [] = _
  rw [groupDigitsAccum_eq]
  by_cases h : m < 1000
  · rw [if_pos h, if_pos h]
  · rw [if_neg h, if_neg h]
    exact groupDigitsAccum_append (m / 1000) _

lemma groupDigits_spec (m : Nat) :
    ∃ k t, groupDigits m = natToString k :: t ∧ k < 1000 ∧ (1 ≤ m → 1 ≤ k) ∧
      ∀ g ∈ t, ∃ j, j < 1000 ∧ g = padStart (natToString j) 3 '0' := by
  induction m using Nat.strong_induction_on with
  | _ m ih =>
    by_cases h : m < 1000
    · refine ⟨m, [], ?_, h, fun h1 => h1, by simp⟩
      rw [groupDigits_eq, if_pos h]
    · have hd : m / 1000 < m := Nat.div_lt_self (by omega) (by omega)
      obtain ⟨k, t, hEq, hk, hk1, ht⟩ := ih (m / 1000) hd
      refine ⟨k, t ++ [padStart (natToString (m % 1000)) 3 '0'], ?_, hk, ?_, ?_⟩
      · rw [groupDigits_eq, if_neg h, hEq]
        rfl
      · intro _
        exact hk1 (by omega)
      · intro g hg
        rcases List.mem_append.mp hg with h1 | h2
        · exact ht g h1
        · simp only [List.mem_singleton] at h2
          exact ⟨m % 1000, by omega, h2⟩

def listVal (a : Nat) (l : List Char) : Nat :=
  l.foldl (fun acc c => 10 * acc + (c.toNat - 48)) a

def strVal (s : String) : Nat := listVal 0 s.data

def groupsValFold (a : Nat) (gs : List String) : Nat :=
  gs.foldl (fun acc g => 1000 * acc + strVal g) a

def groupsVal (gs : List String) : Nat := groupsValFold 0 gs

lemma listVal_append (a : Nat) (l1 l2 : List Char) :
    listVal a (l1 ++ l2) = listVal (listVal a l1) l2 := List.foldl_append _ _ _ _

lemma listVal_natToString (n : Nat) : ∀ a,
    listVal a (natToString n).data = a * 10 ^ (natToString n).length + n := by
  induction n using Nat.strong_induction_on with
  | _ n ih =>
    intro a
    by_cases h : n < 10
    · rw [natToString_data n, if_pos h, natToString_length_lt10 n h]
      show 10 * a + ((digitChar n).toNat - 48) = a * 10 ^ 1 + n
      rw [digitChar_lt_toNat n h]
      ring
    · have hd : n / 10 < n := Nat.div_lt_self (by omega) (by omega)
      rw [natToString_data n, if_neg h, natToString_length_ge10 n h, listVal_append]
      rw [ih (n / 10) hd a]
      show 10 * (a * 10 ^ (natToString (n / 10)).length + n / 10) + ((digitChar (n % 10)).toNat - 48)
        = a * 10 ^ ((natToString (n / 10)).length + 1) + n
      rw [digitChar_lt_toNat (n % 10) (by omega)]
      have : 10 * (n / 10) + n % 10 = n := by omega
      ring_nf
      omega
    
lemma strVal_natToString (n : Nat) : strVal (natToString n) = n := by
  show listVal 0 (natToString n).data = n
  rw [listVal_natToString n 0]
  ring

lemma padStart_data_of_lt (s : String) (n : Nat) (c : Char) (h : ¬ n ≤ s.length) :
    (padStart s n c).data = List.replicate (n - s.length) c ++ s.data := by
  unfold padStart
  rw [if_neg h, data_append]

lemma padStart_data_of_le (s : String) (n : Nat) (c : Char) (h : n ≤ s.length) :
    (padStart s n c).data = s.data := by
  unfold padStart
  rw [if_pos h]

lemma listVal_replicate_zero (j : Nat) : listVal 0 (List.replicate j '0') = 0 := by
  induction j with
  | zero => rfl
  | succ j ihj =>
    show listVal 0 ('0' :: List.replicate j '0') = 0
    show listVal (10 * 0 + ('0'.toNat - 48)) (List.replicate j '0') = 0
    exact ihj

lemma strVal_padStart_zeros (s : String) (n : Nat) :
    strVal (padStart s n '0') = strVal s := by
  by_cases h : n ≤ s.length
  · show listVal 0 (padStart s n '0').data = listVal 0 s.data
    rw [padStart_data_of_le s n '0' h]
  · show listVal 0 (padStart s n '0').data = listVal 0 s.data
    rw [padStart_data_of_lt s n '0' h, listVal_append, listVal_replicate_zero]

lemma padStart_length (s : String) (n : Nat) (c : Char) (h : s.length ≤ n) :
    (padStart s n c).length = n := by
  by_cases h2 : n ≤ s.length
  · rw [show (padStart s n c) = s from if_pos h2]
    omega
  · show (padStart s n c).data.length = n
    rw [padStart_data_of_lt s n c h2, List.length_append, List.length_replicate]
    show n - s.length + s.length = n
    omega

lemma padStart_mem (s : String) (n : Nat) (c x : Char) (hx : x ∈ (padStart s n c).data) :
    x = c ∨ x ∈ s.data := by
  by_cases h : n ≤ s.length
  · rw [padStart_data_of_le s n c h] at hx
    exact Or.inr hx
  · rw [padStart_data_of_lt s n c h] at hx
    rcases List.mem_append.mp hx with h1 | h2
    · exact Or.inl (List.eq_of_mem_replicate h1)
    · exact Or.inr h2

lemma groupsValFold_append (a : Nat) (l1 l2 : List String) :
    groupsValFold a (l1 ++ l2) = groupsValFold (groupsValFold a l1) l2 := List.foldl_append _ _ _ _

lemma groupsVal_groupDigits (m : Nat) : groupsVal (groupDigits m) = m := by
  induction m using Nat.strong_induction_on with
  | _ m ih =>
    by_cases h : m < 1000
    · rw [groupDigits_eq, if_pos h]
      show 1000 * 0 + strVal (natToString m) = m
      rw [strVal_natToString]
      omega
    · have hd : m / 1000 < m := Nat.div_lt_self (by omega) (by omega)
      rw [groupDigits_eq, if_neg h]
      show groupsValFold 0 (groupDigits (m / 1000) ++ [padStart (natToString (m % 1000)) 3 '0']) = m
      rw [groupsValFold_append]
      show 1000 * groupsVal (groupDigits (m / 1000))
          + strVal (padStart (natToString (m % 1000)) 3 '0') = m
      rw [ih (m / 1000) hd, strVal_padStart_zeros, strVal_natToString]
      omega

/-! Lemmas about the stricter variant used by the claims below. -/

lemma sign_ne_zero_of_ne_zero (a : Int) (ha : a ≠ 0) : Int.sign a ≠ 0 := by
  rcases lt_trichotomy a 0 with h | h | h
  · rw [Int.sign_eq_neg_one_of_neg h]; decide
  · exact absurd h ha
  · rw [Int.sign_eq_one_of_pos h]; decide

lemma WpCheckout.digitGroups_brl (abs : Nat) (h : abs ≠ 0) :
    WpCheckout.digitGroupsOfAmountForCurrency "BRL" abs =
      .error "Minor unit format for currency code not defined: BRL" := by
  unfold WpCheckout.digitGroupsOfAmountForCurrency
  rw [if_neg h]
  rfl

lemma WpCheckout.digitGroups_aud (abs : Nat) (h : abs ≠ 0) :
    WpCheckout.digitGroupsOfAmountForCurrency "AUD" abs =
      .error "Unknown currency exponent" := by
  unfold WpCheckout.digitGroupsOfAmountForCurrency
  rw [if_neg h]
  rfl

lemma WpCheckout.render_brl (abs : Nat) (h : abs ≠ 0) :
    WpCheckout.renderAmountWithSeparatorsForCurrencyAndLocale abs "us" "BRL" =
      .error "Minor unit format for currency code not defined: BRL" := by
  unfold WpCheckout.renderAmountWithSeparatorsForCurrencyAndLocale
  rw [WpCheckout.digitGroups_brl abs h]

lemma WpCheckout.render_aud (abs : Nat) (h : abs ≠ 0) :
    WpCheckout.renderAmountWithSeparatorsForCurrencyAndLocale abs "us" "AUD" =
      .error "Unknown currency exponent" := by
  unfold WpCheckout.renderAmountWithSeparatorsForCurrencyAndLocale
  rw [WpCheckout.digitGroups_aud abs h]

lemma WpCheckout.formatCore_brl_nonzero (a : Int) (ha : a ≠ 0) :
    WpCheckout.formatCore "us" "BRL" a =
      .error "Minor unit format for currency code not defined: BRL" := by
  have habs : a.natAbs ≠ 0 := Int.natAbs_ne_zero.mpr ha
  have hsgn : Int.sign a ≠ 0 := sign_ne_zero_of_ne_zero a ha
  unfold WpCheckout.formatCore
  rw [if_pos (show jsToLower "us" = "us" from rfl)]
  rw [if_neg (show ¬ (jsToUpper "BRL" = "USD" ∨ jsToUpper "BRL" = "JPY" ∨
    jsToUpper "BRL" = "GBP" ∨ jsToUpper "BRL" = "EUR") by decide)]
  unfold WpCheckout.formatSymbolAmountCode WpCheckout.formatSymbolAmount
  rw [show jsToLower "us" = "us" from rfl, show jsToUpper "BRL" = "BRL" from rfl]
  rw [show WpCheckout.symbolForCurrency "BRL" = .ok "R$" from rfl]
  simp only [if_neg hsgn, WpCheckout.render_brl a.natAbs habs]

lemma WpCheckout.formatCore_aud_nonzero (a : Int) (ha : a ≠ 0) :
    WpCheckout.formatCore "us" "AUD" a = .error "Unknown currency exponent" := by
  have habs : a.natAbs ≠ 0 := Int.natAbs_ne_zero.mpr ha
  have hsgn : Int.sign a ≠ 0 := sign_ne_zero_of_ne_zero a ha
  unfold WpCheckout.formatCore
  rw [if_pos (show jsToLower "us" = "us" from rfl)]
  rw [if_neg (show ¬ (jsToUpper "AUD" = "USD" ∨ jsToUpper "AUD" = "JPY" ∨
    jsToUpper "AUD" = "GBP" ∨ jsToUpper "AUD" = "EUR") by decide)]
  unfold WpCheckout.formatSymbolAmountCode WpCheckout.formatSymbolAmount
  rw [show jsToLower "us" = "us" from rfl, show jsToUpper "AUD" = "AUD" from rfl]
  rw [show WpCheckout.symbolForCurrency "AUD" = .ok "$" from rfl]
  simp only [if_neg hsgn, WpCheckout.render_aud a.natAbs habs]

lemma c1_aux : ∀ n : Fin 100, 0 < n.val →
    (twoDecimalCheck (WpCheckout.formatCore "us" "USD" (n.val : Int)) = true ∧
     twoDecimalCheck (WpCheckout.formatCore "us" "GBP" (n.val : Int)) = true ∧
     twoDecimalCheck (WpCheckout.formatCore "us" "EUR" (n.val : Int)) = true ∧
     twoDecimalCheck (WpCheckout.formatCore "us" "NZD" (n.val : Int)) = true ∧
     twoDecimalCheck (WpCheckout.formatCore "us" "CAD" (n.val : Int)) = true) := by decide

lemma base100_of (cc : String)
    (hcc : cc = "USD" ∨ cc = "GBP" ∨ cc = "EUR" ∨ cc = "NZD") :
    minorUnitsPerMajorUnitForCurrency cc = .ok 100 := by
  rcases hcc with rfl | rfl | rfl | rfl <;> rfl

lemma WpCheckout.minor100_of (cc : String)
    (hcc : cc = "USD" ∨ cc = "GBP" ∨ cc = "EUR" ∨ cc = "NZD") (v : Int)
    (h0 : 0 ≤ v) (h1 : v < 100) :
    WpCheckout.minorUnitsAsDecimalForCurrency cc v = .ok (padStart (intToString v) 2 '0') := by
  rcases hcc with rfl | rfl | rfl | rfl <;>
    (unfold WpCheckout.minorUnitsAsDecimalForCurrency; rw [if_pos (by decide), if_neg (by omega)])

lemma PartZero.minor100_ofLoose (cc : String)
    (hcc : cc = "USD" ∨ cc = "GBP" ∨ cc = "EUR" ∨ cc = "NZD") (v : Int) :
    PartZero.minorUnitsAsDecimalForCurrency cc v = .ok (padStart (intToString v) 2 '0') := by
  rcases hcc with rfl | rfl | rfl | rfl <;>
    (unfold PartZero.minorUnitsAsDecimalForCurrency; rw [if_pos (by decide)])

lemma WpCheckout.dg100 (cc : String)
    (hcc : cc = "USD" ∨ cc = "GBP" ∨ cc = "EUR" ∨ cc = "NZD") (abs : Nat) (habs : abs ≠ 0) :
    WpCheckout.digitGroupsOfAmountForCurrency cc abs =
      .ok (groupDigits (abs / 100),
        some (padStart (intToString ((abs % 100 : Nat) : Int)) 2 '0')) := by
  have hmod : ((abs % 100 : Nat) : Int) < 100 := by
    have := Nat.mod_lt abs (show 0 < 100 by omega)
    exact_mod_cast this
  unfold WpCheckout.digitGroupsOfAmountForCurrency
  rw [if_neg habs]
  simp only [base100_of cc hcc]
  rw [if_neg (show ¬ (100 : Nat) = 1 by decide)]
  simp only [WpCheckout.minor100_of cc hcc ((abs % 100 : Nat) : Int) (by positivity) hmod]

lemma PartZero.dg100Loose (cc : String)
    (hcc : cc = "USD" ∨ cc = "GBP" ∨ cc = "EUR" ∨ cc = "NZD") (abs : Nat) (habs : abs ≠ 0) :
    PartZero.digitGroupsOfAmountForCurrency cc abs =
      .ok (groupDigits (abs / 100),
        some (padStart (intToString ((abs % 100 : Nat) : Int)) 2 '0')) := by
  unfold PartZero.digitGroupsOfAmountForCurrency
  rw [if_neg habs]
  simp only [base100_of cc hcc]
  rw [if_neg (show ¬ (100 : Nat) = 1 by decide)]
  simp only [PartZero.minor100_ofLoose cc hcc ((abs % 100 : Nat) : Int)]

lemma WpCheckout.render100 (cc : String)
    (hcc : cc = "USD" ∨ cc = "GBP" ∨ cc = "EUR" ∨ cc = "NZD") (abs : Nat) (habs : abs ≠ 0) :
    WpCheckout.renderAmountWithSeparatorsForCurrencyAndLocale abs "us" cc =
      .ok (joinSep "," (groupDigits (abs / 100)) ++ "." ++
        padStart (intToString ((abs % 100 : Nat) : Int)) 2 '0') := by
  unfold WpCheckout.renderAmountWithSeparatorsForCurrencyAndLocale
  simp only [WpCheckout.dg100 cc hcc abs habs]
  simp only [show separatorsForLocale "us" = some (Separators.mk "." ",") from rfl]
  simp only [base100_of cc hcc]
  rw [if_neg (show ¬ (100 : Nat) = 1 by decide)]
  rfl

lemma PartZero.render100Loose (cc : String)
    (hcc : cc = "USD" ∨ cc = "GBP" ∨ cc = "EUR" ∨ cc = "NZD") (abs : Nat) (habs : abs ≠ 0) :
    PartZero.renderAmountWithSeparatorsForCurrencyAndLocale abs "us" cc =
      .ok (joinSep "," (groupDigits (abs / 100)) ++ "." ++
        padStart (intToString ((abs % 100 : Nat) : Int)) 2 '0') := by
  unfold PartZero.renderAmountWithSeparatorsForCurrencyAndLocale
  simp only [PartZero.dg100Loose cc hcc abs habs]
  simp only [show separatorsForLocale "us" = some (Separators.mk "." ",") from rfl]
  simp only [base100_of cc hcc]
  rw [if_neg (show ¬ (100 : Nat) = 1 by decide)]
  rfl

lemma WpCheckout.dgJPY (abs : Nat) (habs : abs ≠ 0) :
    WpCheckout.digitGroupsOfAmountForCurrency "JPY" abs = .ok (groupDigits abs, none) := by
  unfold WpCheckout.digitGroupsOfAmountForCurrency
  rw [if_neg habs]
  rfl

lemma PartZero.dgJPYLoose (abs : Nat) (habs : abs ≠ 0) :
    PartZero.digitGroupsOfAmountForCurrency "JPY" abs = .ok (groupDigits abs, none) := by
  unfold PartZero.digitGroupsOfAmountForCurrency
  rw [if_neg habs]
  rfl

lemma WpCheckout.renderJPY (abs : Nat) (habs : abs ≠ 0) :
    WpCheckout.renderAmountWithSeparatorsForCurrencyAndLocale abs "us" "JPY" =
      .ok (joinSep "," (groupDigits abs)) := by
  unfold WpCheckout.renderAmountWithSeparatorsForCurrencyAndLocale
  simp only [WpCheckout.dgJPY abs habs]
  rfl

lemma PartZero.renderJPYLoose (abs : Nat) (habs : abs ≠ 0) :
    PartZero.renderAmountWithSeparatorsForCurrencyAndLocale abs "us" "JPY" =
      .ok (joinSep "," (groupDigits abs)) := by
  unfold PartZero.renderAmountWithSeparatorsForCurrencyAndLocale
  simp only [PartZero.dgJPYLoose abs habs]
  rfl

lemma fsa100 (cc : String)
    (hcc : cc = "USD" ∨ cc = "GBP" ∨ cc = "EUR" ∨ cc = "NZD")
    (sgn : Int) (abs : Nat) (habs : abs ≠ 0) :
    WpCheckout.formatSymbolAmount sgn abs "us" cc = PartZero.formatSymbolAmount sgn abs "us" cc ∧
    ∃ s, WpCheckout.formatSymbolAmount sgn abs "us" cc = .ok s := by
  obtain ⟨sym, h1, h2⟩ : ∃ sym, WpCheckout.symbolForCurrency cc = .ok sym ∧
      PartZero.symbolForCurrency cc = .ok sym := by
    rcases hcc with rfl | rfl | rfl | rfl <;> exact ⟨_, rfl, rfl⟩
  unfold WpCheckout.formatSymbolAmount PartZero.formatSymbolAmount
  simp only [h1, h2, WpCheckout.render100 cc hcc abs habs, PartZero.render100Loose cc hcc abs habs]
  refine ⟨trivial, ?_⟩
  by_cases hs : sgn = 0
  · rw [if_pos hs]
    exact ⟨_, rfl⟩
  · rw [if_neg hs]
    exact ⟨_, rfl⟩

lemma fsaJPY (sgn : Int) (abs : Nat) (habs : abs ≠ 0) :
    WpCheckout.formatSymbolAmount sgn abs "us" "JPY" =
      PartZero.formatSymbolAmount sgn abs "us" "JPY" ∧
    ∃ s, WpCheckout.formatSymbolAmount sgn abs "us" "JPY" = .ok s := by
  unfold WpCheckout.formatSymbolAmount PartZero.formatSymbolAmount
  simp only [show WpCheckout.symbolForCurrency "JPY" = .ok "¥" from rfl,
    show PartZero.symbolForCurrency "JPY" = .ok "¥" from rfl,
    WpCheckout.renderJPY abs habs, PartZero.renderJPYLoose abs habs]
  refine ⟨trivial, ?_⟩
  by_cases hs : sgn = 0
  · rw [if_pos hs]
    exact ⟨_, rfl⟩
  · rw [if_neg hs]
    exact ⟨_, rfl⟩

lemma fsaCode100 (cc : String)
    (hcc : cc = "USD" ∨ cc = "GBP" ∨ cc = "EUR" ∨ cc = "NZD")
    (sgn : Int) (abs : Nat) (habs : abs ≠ 0) :
    WpCheckout.formatSymbolAmountCode sgn abs "us" cc =
      PartZero.formatSymbolAmountCode sgn abs "us" cc ∧
    ∃ s, WpCheckout.formatSymbolAmountCode sgn abs "us" cc = .ok s := by
  obtain ⟨heq, s, hs⟩ := fsa100 cc hcc sgn abs habs
  unfold WpCheckout.formatSymbolAmountCode PartZero.formatSymbolAmountCode
  rw [← heq, hs]
  exact ⟨rfl, _, rfl⟩

lemma charToLowerJs_idem (c : Char) : charToLowerJs (charToLowerJs c) = charToLowerJs c := by
  by_cases h : 65 ≤ c.toNat ∧ c.toNat ≤ 90
  · have e : charToLowerJs c = Char.ofNat (c.toNat + 32) := if_pos h
    rw [e]
    obtain ⟨h1, h2⟩ := h
    set m := c.toNat with hm
    interval_cases m <;> decide
  · have e : charToLowerJs c = c := if_neg h
    rw [e, e]

lemma charToUpperJs_idem (c : Char) : charToUpperJs (charToUpperJs c) = charToUpperJs c := by
  by_cases h : 97 ≤ c.toNat ∧ c.toNat ≤ 122
  · have e : charToUpperJs c = Char.ofNat (c.toNat - 32) := if_pos h
    rw [e]
    obtain ⟨h1, h2⟩ := h
    set m := c.toNat with hm
    interval_cases m <;> decide
  · have e : charToUpperJs c = c := if_neg h
    rw [e, e]

lemma jsToLower_idem (s : String) : jsToLower (jsToLower s) = jsToLower s := by
  have hfun : charToLowerJs ∘ charToLowerJs = charToLowerJs := funext charToLowerJs_idem
  simp only [jsToLower, List.map_map, hfun]

lemma jsToUpper_idem (s : String) : jsToUpper (jsToUpper s) = jsToUpper s := by
  have hfun : charToUpperJs ∘ charToUpperJs = charToUpperJs := funext charToUpperJs_idem
  simp only [jsToUpper, List.map_map, hfun]

lemma joinSep_mem (sep : String) : ∀ (l : List String) (x : Char),
    x ∈ (joinSep sep l).data → x ∈ sep.data ∨ ∃ g ∈ l, x ∈ g.data := by
  intro l
  induction l with
  | nil =>
    intro x hx
    exact absurd hx (by simp [joinSep])
  | cons a xs ih =>
    intro x hx
    cases xs with
    | nil =>
      right
      exact ⟨a, by simp, hx⟩
    | cons b ys =>
      rw [show joinSep sep (a :: b :: ys) = a ++ sep ++ joinSep sep (b :: ys) from rfl,
        data_append, data_append] at hx
      rcases List.mem_append.mp hx with h1 | h2
      · rcases List.mem_append.mp h1 with h3 | h4
        · exact Or.inr ⟨a, by simp, h3⟩
        · exact Or.inl h4
      · rcases ih x h2 with h5 | ⟨g, hg, hgx⟩
        · exact Or.inl h5
        · exact Or.inr ⟨g, by simp [hg], hgx⟩

lemma WpCheckout.symbol_ok_values (cc sym : String)
    (h : WpCheckout.symbolForCurrency cc = .ok sym) :
    sym = "$" ∨ sym = "£" ∨ sym = "€" ∨ sym = "¥" ∨ sym = "R$" := by
  unfold WpCheckout.symbolForCurrency at h
  split_ifs at h <;> simp_all

lemma base_ok_codes (cc : String) (b : Nat)
    (h : minorUnitsPerMajorUnitForCurrency cc = .ok b) :
    jsToUpper cc = "JPY" ∨ jsToUpper cc = "BRL" ∨ jsToUpper cc = "CAD" ∨
      jsToUpper cc = "EUR" ∨ jsToUpper cc = "GBP" ∨ jsToUpper cc = "NZD" ∨
      jsToUpper cc = "USD" := by
  unfold minorUnitsPerMajorUnitForCurrency at h
  split_ifs at h <;> tauto

lemma WpCheckout.minor_ok_digits (cc : String) (v : Int) (f : String)
    (h : WpCheckout.minorUnitsAsDecimalForCurrency cc v = .ok f) :
    ∀ ch ∈ f.data, ch.isDigit = true := by
  unfold WpCheckout.minorUnitsAsDecimalForCurrency at h
  split_ifs at h with h1 h2
  injection h with hf
  subst hf
  intro ch hch
  rcases padStart_mem _ 2 '0' ch hch with h3 | h4
  · subst h3; decide
  · have hv : ¬ v < 0 := by omega
    rw [show intToString v = natToString v.natAbs from if_neg hv] at h4
    exact natToString_all_digits v.natAbs ch h4

lemma groupDigits_all_digits (m : Nat) :
    ∀ g ∈ groupDigits m, ∀ ch ∈ g.data, ch.isDigit = true := by
  obtain ⟨k, t, hEq, hk, hk1, ht⟩ := groupDigits_spec m
  intro g hg
  rw [hEq] at hg
  rcases List.mem_cons.mp hg with h1 | h2
  · subst h1
    exact natToString_all_digits k
  · obtain ⟨j, hj, hgj⟩ := ht g h2
    subst hgj
    intro ch hch
    rcases padStart_mem _ 3 '0' ch hch with h3 | h4
    · subst h3; decide
    · exact natToString_all_digits j ch h4

lemma WpCheckout.dg_ok_parts (cc : String) (abs : Nat) (gs : List String) (frac : Option String)
    (h : WpCheckout.digitGroupsOfAmountForCurrency cc abs = .ok (gs, frac)) :
    (∀ g ∈ gs, ∀ ch ∈ g.data, ch.isDigit = true) ∧
    (∀ f, frac = some f → ∀ ch ∈ f.data, ch.isDigit = true) ∧
    (∀ b, minorUnitsPerMajorUnitForCurrency cc = .ok b → b ≠ 1 → frac ≠ none) := by
  unfold WpCheckout.digitGroupsOfAmountForCurrency at h
  by_cases h0 : abs = 0
  · rw [if_pos h0] at h
    cases hm : WpCheckout.minorUnitsAsDecimalForCurrency cc 0 with
    | error e => rw [hm] at h; exact absurd h (by simp)
    | ok f0 =>
      rw [hm] at h
      have hgs : gs = ["0"] ∧ frac = some f0 := by
        constructor <;> [skip; skip] <;> cases h <;> rfl
      obtain ⟨hgs1, hgs2⟩ := hgs
      subst hgs1; subst hgs2
      refine ⟨?_, ?_, ?_⟩
      · intro g hg ch hch
        rcases List.mem_singleton.mp hg with rfl
        rcases List.mem_singleton.mp hch with rfl
        decide
      · intro f hf
        cases hf
        exact WpCheckout.minor_ok_digits cc 0 f0 hm
      · intro b hb hb1
        simp
  · rw [if_neg h0] at h
    cases hB : minorUnitsPerMajorUnitForCurrency cc with
    | error e => rw [hB] at h; exact absurd h (by simp)
    | ok base =>
      rw [hB] at h
      simp only [] at h
      by_cases hb1 : base = 1
      · rw [if_pos hb1] at h
        have hgs : gs = groupDigits abs ∧ frac = none := by
          constructor <;> cases h <;> rfl
        obtain ⟨hgs1, hgs2⟩ := hgs
        subst hgs1; subst hgs2
        refine ⟨groupDigits_all_digits abs, by simp, ?_⟩
        intro b hb hbne
        injection hb with h2
        exfalso
        omega
      · rw [if_neg hb1] at h
        cases hm : WpCheckout.minorUnitsAsDecimalForCurrency cc ((abs % base : Nat) : Int) with
        | error e => rw [hm] at h; exact absurd h (by simp)
        | ok f0 =>
          rw [hm] at h
          have hgs : gs = groupDigits (abs / base) ∧ frac = some f0 := by
            constructor <;> cases h <;> rfl
          obtain ⟨hgs1, hgs2⟩ := hgs
          subst hgs1; subst hgs2
          refine ⟨groupDigits_all_digits _, ?_, by simp⟩
          intro f hf
          cases hf
          exact WpCheckout.minor_ok_digits cc _ f0 hm

lemma string_append_assoc (x y z : String) : (x ++ y) ++ z = x ++ (y ++ z) := by
  cases x with
  | mk lx =>
    cases y with
    | mk ly =>
      cases z with
      | mk lz => exact congrArg String.mk (List.append_assoc lx ly lz)

lemma WpCheckout.render_ok_chars (cc : String) (abs : Nat) (r : String)
    (h : WpCheckout.renderAmountWithSeparatorsForCurrencyAndLocale abs "us" cc = .ok r) :
    (∀ ch ∈ r.data, ch.isDigit = true ∨ ch = ',' ∨ ch = '.') ∧
    ∃ b, minorUnitsPerMajorUnitForCurrency cc = .ok b := by
  unfold WpCheckout.renderAmountWithSeparatorsForCurrencyAndLocale at h
  cases hdg : WpCheckout.digitGroupsOfAmountForCurrency cc abs with
  | error e =>
    simp only [hdg] at h
    exact absurd h (by simp)
  | ok p =>
    obtain ⟨gs, frac⟩ := p
    obtain ⟨hgs, hfrac, hsome⟩ := WpCheckout.dg_ok_parts cc abs gs frac hdg
    simp only [hdg] at h
    simp only [show separatorsForLocale "us" = some (Separators.mk "." ",") from rfl] at h
    cases hB : minorUnitsPerMajorUnitForCurrency cc with
    | error e =>
      simp only [hB] at h
      exact absurd h (by simp)
    | ok base =>
      simp only [hB] at h
      refine ⟨?_, base, rfl⟩
      by_cases hb1 : base = 1
      · rw [if_pos hb1] at h
        injection h with hr
        subst hr
        intro ch hch
        rcases joinSep_mem "," gs ch hch with h1 | ⟨g, hg, hgx⟩
        · right; left; simpa using h1
        · exact Or.inl (hgs g hg ch hgx)
      · rw [if_neg hb1] at h
        injection h with hr
        subst hr
        have hfr : frac ≠ none := hsome base hB hb1
        obtain ⟨f, rfl⟩ : ∃ f, frac = some f := Option.ne_none_iff_exists'.mp hfr
        intro ch hch
        rw [data_append, data_append] at hch
        rcases List.mem_append.mp hch with h12 | h3
        · rcases List.mem_append.mp h12 with h1 | h2
          · rcases joinSep_mem "," gs ch h1 with hsep | ⟨g, hg, hgx⟩
            · right; left; simpa using hsep
            · exact Or.inl (hgs g hg ch hgx)
          · right; right; simpa using h2
        · exact Or.inl (hfrac f rfl ch (by simpa using h3))

lemma WpCheckout.fsa_neg_shape (abs : Nat) (nc s : String)
    (h : WpCheckout.formatSymbolAmount (-1) abs "us" nc = .ok s) :
    ∃ sym r, WpCheckout.symbolForCurrency nc = .ok sym ∧ s = "-" ++ (sym ++ r) ∧
      (∀ ch ∈ r.data, ch.isDigit = true ∨ ch = ',' ∨ ch = '.') ∧
      ∃ b, minorUnitsPerMajorUnitForCurrency nc = .ok b := by
  unfold WpCheckout.formatSymbolAmount at h
  cases hsym : WpCheckout.symbolForCurrency nc with
  | error e =>
    simp only [hsym] at h
    exact absurd h (by simp)
  | ok sym =>
    simp only [hsym] at h
    rw [if_neg (by decide : ¬ (-1 : Int) = 0)] at h
    cases hr : WpCheckout.renderAmountWithSeparatorsForCurrencyAndLocale abs "us" nc with
    | error e =>
      simp only [hr] at h
      exact absurd h (by simp)
    | ok r =>
      simp only [hr] at h
      rw [if_neg (by decide : ¬ (0 : Int) ≤ -1)] at h
      injection h with hs
      obtain ⟨hchars, hbase⟩ := WpCheckout.render_ok_chars nc abs r hr
      exact ⟨sym, r, rfl, hs.symm, hchars, hbase⟩

/-! Claim theorems.  Each claim of the specification gets one theorem below,
stated against the embedded source functions. -/

/-- C1, counterexample to the claim as stated: AUD is listed by the spec as a
two-digit currency supported at locale us, yet the stricter formatter throws
for the amount 5 (its minor-unit base lookup has no AUD entry), so the call
returns no string with a decimal separator at all; BRL likewise fails (no
minor-unit rendering rule). -/
theorem c1_counterexample :
    WpCheckout.formatCore "us" "AUD" 5 = .error "Unknown currency exponent" ∧
    twoDecimalCheck (WpCheckout.formatCore "us" "AUD" 5) = false ∧
    WpCheckout.formatCore "us" "BRL" 5 =
      .error "Minor unit format for currency code not defined: BRL" ∧
    twoDecimalCheck (WpCheckout.formatCore "us" "BRL" 5) = false := by decide

/-- C1 (amended): for the two-digit currencies whose minor-unit base and
minor-unit rendering rule are both defined (USD, GBP, EUR, NZD, CAD — not AUD
or BRL), formatting any integer amount a with 0 < a < 100 at locale us yields
a string with exactly one decimal separator and exactly two digit characters
after it, and the amount 0 yields a string with no decimal separator. -/
theorem c1_two_decimal_digits (c : String) (hc : c ∈ ["USD", "GBP", "EUR", "NZD", "CAD"])
    (a : Int) (h0 : 0 < a) (h1 : a < 100) :
    twoDecimalCheck (WpCheckout.formatCore "us" c a) = true ∧
    (∃ s, WpCheckout.formatCore "us" c 0 = .ok s ∧ countChar s '.' = 0) := by
  have ha2 : a = ((a.toNat : Nat) : Int) := by omega
  have haux := c1_aux ⟨a.toNat, by omega⟩ (show 0 < a.toNat by omega)
  fin_cases hc
  · exact ⟨by rw [ha2]; exact haux.1, "$0", by decide, by decide⟩
  · exact ⟨by rw [ha2]; exact haux.2.1, "£0", by decide, by decide⟩
  · exact ⟨by rw [ha2]; exact haux.2.2.1, "€0", by decide, by decide⟩
  · exact ⟨by rw [ha2]; exact haux.2.2.2.1, "$0 NZD", by decide, by decide⟩
  · exact ⟨by rw [ha2]; exact haux.2.2.2.2, "$0 CAD", by decide, by decide⟩

/-- C1 witness: the amended theorem applied at USD and amount 7. -/
theorem c1_two_decimal_digits_witness :
    twoDecimalCheck (WpCheckout.formatCore "us" "USD" 7) = true ∧
    (∃ s, WpCheckout.formatCore "us" "USD" 0 = .ok s ∧ countChar s '.' = 0) :=
  c1_two_decimal_digits "USD" (by decide) 7 (by decide) (by decide)

/-- C2: every integer amount whose minor-unit remainder is nonzero makes the
stricter formatter fail for BRL with the missing-minor-unit-rule error text
(BRL has a symbol and base 100 but no minor-unit rendering case); no string is
ever returned. -/
theorem c2_brl_fractional_fails (a : Int) (ha : a % 100 ≠ 0) :
    WpCheckout.formatCore "us" "BRL" a =
      .error "Minor unit format for currency code not defined: BRL" := by
  apply WpCheckout.formatCore_brl_nonzero
  intro h
  subst h
  exact ha (by decide)

/-- C2 witness: the theorem applied at amount 5. -/
theorem c2_brl_fractional_fails_witness :
    WpCheckout.formatCore "us" "BRL" 5 =
      .error "Minor unit format for currency code not defined: BRL" :=
  c2_brl_fractional_fails 5 (by decide)

/-- C3: for USD, GBP, EUR, NZD and JPY the stricter variant
(format-monetary-amount-for-locale.js) and the looser variant (part_000)
return the identical string for every integer amount at locale us, and both
succeed. -/
theorem c3_variants_agree (a : Int) (c : String)
    (hc : c ∈ ["USD", "GBP", "EUR", "NZD", "JPY"]) :
    WpCheckout.formatCore "us" c a = PartZero.formatCore "us" c a ∧
    ∃ s, WpCheckout.formatCore "us" c a = .ok s := by
  have hlo : jsToLower "us" = "us" := rfl
  fin_cases hc
  · rcases eq_or_ne a 0 with rfl | ha
    · exact ⟨by decide, "$0", by decide⟩
    · have habs : a.natAbs ≠ 0 := Int.natAbs_ne_zero.mpr ha
      obtain ⟨heq, s, hs⟩ := fsa100 "USD" (by tauto) (Int.sign a) a.natAbs habs
      unfold WpCheckout.formatCore PartZero.formatCore
      rw [if_pos hlo, if_pos (by decide), hlo, show jsToUpper "USD" = "USD" from rfl]
      exact ⟨heq, s, hs⟩
  · rcases eq_or_ne a 0 with rfl | ha
    · exact ⟨by decide, "£0", by decide⟩
    · have habs : a.natAbs ≠ 0 := Int.natAbs_ne_zero.mpr ha
      obtain ⟨heq, s, hs⟩ := fsa100 "GBP" (by tauto) (Int.sign a) a.natAbs habs
      unfold WpCheckout.formatCore PartZero.formatCore
      rw [if_pos hlo, if_pos (by decide), hlo, show jsToUpper "GBP" = "GBP" from rfl]
      exact ⟨heq, s, hs⟩
  · rcases eq_or_ne a 0 with rfl | ha
    · exact ⟨by decide, "€0", by decide⟩
    · have habs : a.natAbs ≠ 0 := Int.natAbs_ne_zero.mpr ha
      obtain ⟨heq, s, hs⟩ := fsa100 "EUR" (by tauto) (Int.sign a) a.natAbs habs
      unfold WpCheckout.formatCore PartZero.formatCore
      rw [if_pos hlo, if_pos (by decide), hlo, show jsToUpper "EUR" = "EUR" from rfl]
      exact ⟨heq, s, hs⟩
  · rcases eq_or_ne a 0 with rfl | ha
    · exact ⟨by decide, "$0 NZD", by decide⟩
    · have habs : a.natAbs ≠ 0 := Int.natAbs_ne_zero.mpr ha
      obtain ⟨heq, s, hs⟩ := fsaCode100 "NZD" (by tauto) (Int.sign a) a.natAbs habs
      unfold WpCheckout.formatCore PartZero.formatCore
      rw [if_neg (by decide : ¬ (jsToUpper "NZD" = "USD" ∨ jsToUpper "NZD" = "JPY" ∨
        jsToUpper "NZD" = "GBP" ∨ jsToUpper "NZD" = "EUR")), if_pos hlo, hlo,
        show jsToUpper "NZD" = "NZD" from rfl]
      exact ⟨heq, s, hs⟩
  · rcases eq_or_ne a 0 with rfl | ha
    · exact ⟨by decide, "¥0", by decide⟩
    · have habs : a.natAbs ≠ 0 := Int.natAbs_ne_zero.mpr ha
      obtain ⟨heq, s, hs⟩ := fsaJPY (Int.sign a) a.natAbs habs
      unfold WpCheckout.formatCore PartZero.formatCore
      rw [if_pos hlo, if_pos (by decide), hlo, show jsToUpper "JPY" = "JPY" from rfl]
      exact ⟨heq, s, hs⟩

/-- C3 witness: the theorem applied at USD and amount 123456. -/
theorem c3_variants_agree_witness :
    WpCheckout.formatCore "us" "USD" 123456 = PartZero.formatCore "us" "USD" 123456 ∧
    ∃ s, WpCheckout.formatCore "us" "USD" 123456 = .ok s :=
  c3_variants_agree 123456 "USD" (by decide)

/-- C4: base-1000 digit grouping.  For every nonnegative integer the grouping
yields a nonempty sequence of decimal-digit groups of one to three digits,
groups after the first padded to exactly three digits, the first group free of
leading-zero padding, most-significant first (reading the groups back in
order base 1000 recovers the number); 50000000 groups as 50,000,000; zero
groups as the single group 0; and formatting 500000000 minor units of USD at
locale us yields the expected grouped string. -/
theorem c4_digit_grouping (n : Nat) :
    (groupDigits n ≠ [] ∧
     (∀ g ∈ groupDigits n, 1 ≤ g.length ∧ g.length ≤ 3 ∧ ∀ ch ∈ g.data, ch.isDigit = true) ∧
     (∀ g ∈ (groupDigits n).tail, g.length = 3) ∧
     (∀ h0, (groupDigits n).head? = some h0 → h0.data.head? = some '0' → h0 = "0") ∧
     groupsVal (groupDigits n) = n) ∧
    groupDigits 50000000 = ["50", "000", "000"] ∧
    groupDigits 0 = ["0"] ∧
    WpCheckout.formatCore "us" "USD" 500000000 = .ok "$5,000,000.00" := by
  obtain ⟨k, t, hEq, hk, hk1, ht⟩ := groupDigits_spec n
  refine ⟨⟨?_, ?_, ?_, ?_, groupsVal_groupDigits n⟩, by decide, rfl, by decide⟩
  · rw [hEq]
    exact List.cons_ne_nil _ _
  · intro g hg
    rw [hEq] at hg
    rcases List.mem_cons.mp hg with h1 | h2
    · subst h1
      exact ⟨natToString_length_pos k, natToString_length_le k hk, natToString_all_digits k⟩
    · obtain ⟨j, hj, hgj⟩ := ht g h2
      subst hgj
      have hlen : (padStart (natToString j) 3 '0').length = 3 :=
        padStart_length _ 3 '0' (natToString_length_le j hj)
      refine ⟨by omega, by omega, ?_⟩
      intro ch hch
      rcases padStart_mem _ 3 '0' ch hch with h3 | h4
      · subst h3; decide
      · exact natToString_all_digits j ch h4
  · intro g hg
    rw [hEq] at hg
    obtain ⟨j, hj, hgj⟩ := ht g hg
    subst hgj
    exact padStart_length _ 3 '0' (natToString_length_le j hj)
  · intro h0 hh0 hzero
    rw [hEq] at hh0
    have hh : h0 = natToString k := (Option.some.inj hh0).symm
    subst hh
    by_cases hk0 : 1 ≤ k
    · exact absurd hzero (natToString_head_ne_zero k hk0)
    · have : k = 0 := by omega
      subst this
      rfl

/-- C5: a zero amount is a deliberate special case.  For every currency with a
symbol at locale us the result is the symbol followed by the digit 0 (with the
space-and-code suffix for currencies outside the symbol-dispatch set USD, JPY,
GBP, EUR), carrying no sign and no fractional part; and zero equals negated
zero as an input. -/
theorem c5_zero_special_case (c : String)
    (hc : c ∈ ["AUD", "CAD", "NZD", "USD", "GBP", "EUR", "JPY", "BRL"]) :
    (∃ sym, WpCheckout.symbolForCurrency c = .ok sym ∧
      WpCheckout.formatCore "us" c 0 = .ok (sym ++ "0" ++
        (if c = "USD" ∨ c = "JPY" ∨ c = "GBP" ∨ c = "EUR" then "" else " " ++ c)) ∧
      countChar (sym ++ "0" ++
        (if c = "USD" ∨ c = "JPY" ∨ c = "GBP" ∨ c = "EUR" then "" else " " ++ c)) '-' = 0 ∧
      countChar (sym ++ "0" ++
        (if c = "USD" ∨ c = "JPY" ∨ c = "GBP" ∨ c = "EUR" then "" else " " ++ c)) '.' = 0) ∧
    WpCheckout.formatCore "us" c (-0) = WpCheckout.formatCore "us" c 0 := by
  refine ⟨?_, rfl⟩
  fin_cases hc <;> exact ⟨_, rfl, by decide, by decide, by decide⟩

/-- C5 witness: the theorem applied at NZD. -/
theorem c5_zero_special_case_witness :
    (∃ sym, WpCheckout.symbolForCurrency "NZD" = .ok sym ∧
      WpCheckout.formatCore "us" "NZD" 0 = .ok (sym ++ "0" ++
        (if ("NZD" : String) = "USD" ∨ ("NZD" : String) = "JPY" ∨ ("NZD" : String) = "GBP" ∨
          ("NZD" : String) = "EUR" then "" else " " ++ "NZD")) ∧
      countChar (sym ++ "0" ++
        (if ("NZD" : String) = "USD" ∨ ("NZD" : String) = "JPY" ∨ ("NZD" : String) = "GBP" ∨
          ("NZD" : String) = "EUR" then "" else " " ++ "NZD")) '-' = 0 ∧
      countChar (sym ++ "0" ++
        (if ("NZD" : String) = "USD" ∨ ("NZD" : String) = "JPY" ∨ ("NZD" : String) = "GBP" ∨
          ("NZD" : String) = "EUR" then "" else " " ++ "NZD")) '.' = 0) ∧
    WpCheckout.formatCore "us" "NZD" (-0) = WpCheckout.formatCore "us" "NZD" 0 :=
  c5_zero_special_case "NZD" (by decide)

/-- C6: every negative amount the stricter formatter accepts at locale us
renders with exactly one minus character, placed immediately before the
currency symbol; in particular minus 500 cents of USD renders as -$5.00. -/
theorem c6_negative_sign_placement (c : String) (a : Int) (ha : a < 0) (s : String)
    (h : WpCheckout.formatCore "us" c a = .ok s) :
    (countChar s '-' = 1 ∧
      ∃ sym rest, WpCheckout.symbolForCurrency (jsToUpper c) = .ok sym ∧
        s = "-" ++ (sym ++ rest)) ∧
    WpCheckout.formatCore "us" "USD" (-500) = .ok "-$5.00" := by
  refine ⟨?_, by decide⟩
  have hsgn : Int.sign a = -1 := Int.sign_eq_neg_one_of_neg ha
  unfold WpCheckout.formatCore at h
  rw [if_pos (show jsToLower "us" = "us" from rfl), hsgn,
    show jsToLower "us" = "us" from rfl] at h
  by_cases hc4 : (jsToUpper c = "USD" ∨ jsToUpper c = "JPY" ∨ jsToUpper c = "GBP" ∨
      jsToUpper c = "EUR")
  · rw [if_pos hc4] at h
    obtain ⟨sym, r, hsym, hs, hchars, b, hb⟩ :=
      WpCheckout.fsa_neg_shape a.natAbs (jsToUpper c) s h
    subst hs
    refine ⟨?_, sym, r, hsym, rfl⟩
    have hsymv := WpCheckout.symbol_ok_values (jsToUpper c) sym hsym
    have hsym0 : sym.data.count '-' = 0 := by
      rcases hsymv with rfl | rfl | rfl | rfl | rfl <;> decide
    have hr0 : r.data.count '-' = 0 := by
      rw [List.count_eq_zero]
      intro hmem
      rcases hchars '-' hmem with hd | hcomma | hdot
      · exact absurd hd (by decide)
      · exact absurd hcomma (by decide)
      · exact absurd hdot (by decide)
    show (("-" ++ (sym ++ r)).data.count '-') = 1
    rw [data_append, data_append, List.count_append, List.count_append]
    have h1 : ("-" : String).data.count '-' = 1 := by decide
    omega
  · rw [if_neg hc4] at h
    unfold WpCheckout.formatSymbolAmountCode at h
    cases hfsa : WpCheckout.formatSymbolAmount (-1) a.natAbs "us" (jsToUpper c) with
    | error e =>
      simp only [hfsa] at h
      exact absurd h (by simp)
    | ok s0 =>
      simp only [hfsa] at h
      injection h with hs
      obtain ⟨sym, r, hsym, hs0, hchars, b, hb⟩ :=
        WpCheckout.fsa_neg_shape a.natAbs (jsToUpper c) s0 hfsa
      subst hs0
      rw [string_append_assoc, string_append_assoc] at hs
      subst hs
      refine ⟨?_, sym, r ++ (" " ++ jsToUpper c), hsym, rfl⟩
      have hsymv := WpCheckout.symbol_ok_values (jsToUpper c) sym hsym
      have hsym0 : sym.data.count '-' = 0 := by
        rcases hsymv with rfl | rfl | rfl | rfl | rfl <;> decide
      have hr0 : r.data.count '-' = 0 := by
        rw [List.count_eq_zero]
        intro hmem
        rcases hchars '-' hmem with hd | hcomma | hdot
        · exact absurd hd (by decide)
        · exact absurd hcomma (by decide)
        · exact absurd hdot (by decide)
      have hcode := base_ok_codes (jsToUpper c) b hb
      rw [jsToUpper_idem c] at hcode
      have hcode0 : (jsToUpper c).data.count '-' = 0 := by
        rcases hcode with hE | hE | hE | hE | hE | hE | hE <;> rw [hE] <;> decide
      show ("-" ++ (sym ++ (r ++ (" " ++ jsToUpper c)))).data.count '-' = 1
      rw [data_append, data_append, data_append, data_append, List.count_append,
        List.count_append, List.count_append, List.count_append]
      have h1 : ("-" : String).data.count '-' = 1 := by decide
      have h2 : (" " : String).data.count '-' = 0 := by decide
      omega

/-- C6 witness: the theorem applied at USD and amount minus 500. -/
theorem c6_negative_sign_placement_witness :
    (countChar "-$5.00" '-' = 1 ∧
      ∃ sym rest, WpCheckout.symbolForCurrency (jsToUpper "USD") = .ok sym ∧
        "-$5.00" = "-" ++ (sym ++ rest)) ∧
    WpCheckout.formatCore "us" "USD" (-500) = .ok "-$5.00" :=
  c6_negative_sign_placement "USD" (-500) (by decide) "-$5.00" (by decide)

/-- C7: normalization invariance.  The stricter formatter gives the same
result (string or thrown error) for any letter-case variant of its locale and
currency codes as it does for the lowercased locale and uppercased currency,
and in particular format of US and usd equals format of us and USD at 500. -/
theorem c7_normalization_invariance (l c : String) (a : Int) :
    WpCheckout.formatCore l c a = WpCheckout.formatCore (jsToLower l) (jsToUpper c) a ∧
    WpCheckout.formatCore "US" "usd" 500 = WpCheckout.formatCore "us" "USD" 500 := by
  refine ⟨?_, by decide⟩
  simp only [WpCheckout.formatCore, jsToLower_idem, jsToUpper_idem]

/-- C8: error scenarios at the public entry point.  An unknown currency fails
with the undefined-symbol error, an unhandled locale fails with the unhandled
locale error, a fractional amount fails the integer validation, and a string
amount fails the number validation; none of these calls returns a string. -/
theorem c8_error_scenarios :
    WpCheckout.formatMonetaryAmountForLocale (.str "us") (.str "ZZZ") (.num 100) =
      .error "Symbol for currency code not defined: ZZZ" ∧
    WpCheckout.formatMonetaryAmountForLocale (.str "fr") (.str "USD") (.num 100) =
      .error "Unhandled locale" ∧
    WpCheckout.formatMonetaryAmountForLocale (.str "us") (.str "USD") (.num (100.5 : ℚ)) =
      .error "amount parameter must be an integer." ∧
    WpCheckout.formatMonetaryAmountForLocale (.str "us") (.str "USD") (.str "100") =
      .error "amount parameter must be a number." := by
  refine ⟨by decide, by decide, ?_, by decide⟩
  simp only [WpCheckout.formatMonetaryAmountForLocale]
  rw [if_neg (by norm_num)]

/-- C9: the separators lookup for a locale outside its table returns undefined
(none) instead of failing with an UnsupportedLocale error: the source switch
has no default case, unlike every other lookup in the same file, so the claim
describes the documented intent and the code falls through. -/
theorem c9_separators_fallthrough : separatorsForLocale "fr" = none := by decide

/-- C10: a zero amount consults only the symbol table.  Every currency with a
defined symbol formats zero as symbol plus 0 (with the space-and-code suffix
outside the dispatch set), AUD in particular gives the string with a 0 and the
AUD suffix, even though every nonzero amount fails for AUD (no minor-unit
base) and for BRL (no minor-unit rendering rule). -/
theorem c10_zero_consults_only_symbol_table (a : Int) (ha : a ≠ 0) :
    (∀ c ∈ ["AUD", "CAD", "NZD", "USD", "GBP", "EUR", "JPY", "BRL"],
      ∃ sym, WpCheckout.symbolForCurrency c = .ok sym ∧
        WpCheckout.formatCore "us" c 0 = .ok (sym ++ "0" ++
          (if c = "USD" ∨ c = "JPY" ∨ c = "GBP" ∨ c = "EUR" then "" else " " ++ c))) ∧
    WpCheckout.formatCore "us" "AUD" 0 = .ok "$0 AUD" ∧
    WpCheckout.formatCore "us" "AUD" a = .error "Unknown currency exponent" ∧
    WpCheckout.formatCore "us" "BRL" a =
      .error "Minor unit format for currency code not defined: BRL" := by
  refine ⟨?_, by decide, WpCheckout.formatCore_aud_nonzero a ha,
    WpCheckout.formatCore_brl_nonzero a ha⟩
  intro c hc
  fin_cases hc <;> exact ⟨_, rfl, by decide⟩

/-- C10 witness: the theorem applied at amount 100. -/
theorem c10_zero_consults_only_symbol_table_witness :
    (∀ c ∈ ["AUD", "CAD", "NZD", "USD", "GBP", "EUR", "JPY", "BRL"],
      ∃ sym, WpCheckout.symbolForCurrency c = .ok sym ∧
        WpCheckout.formatCore "us" c 0 = .ok (sym ++ "0" ++
          (if c = "USD" ∨ c = "JPY" ∨ c = "GBP" ∨ c = "EUR" then "" else " " ++ c))) ∧
    WpCheckout.formatCore "us" "AUD" 0 = .ok "$0 AUD" ∧
    WpCheckout.formatCore "us" "AUD" 100 = .error "Unknown currency exponent" ∧
    WpCheckout.formatCore "us" "BRL" 100 =
      .error "Minor unit format for currency code not defined: BRL" :=
  c10_zero_consults_only_symbol_table 100 (by decide)
